import Mathlib

set_option maxRecDepth 40000

/-
A shallow embedding of the bytecode interpreter (scanner, Pratt compiler,
stack VM) from the `src/bytecode` tree, together with theorems settling the
specification claims about it.

Modelling conventions used throughout:
* `u8` bytecode bytes are `Nat`s; every write site that casts with `as u8`
  in the source applies `% 256` explicitly.
* `usize` arithmetic becomes `Nat` arithmetic (truncated subtraction where
  the source's values cannot underflow).
* Byte offsets into the source text are modelled as character offsets; the
  embedded programs are ASCII, where the two coincide.
* `f64` is modelled by `Frac`, an exact (unreduced) fraction; every numeric
  computation performed by the embedded theorems is exact in `f64` (small
  integers), where the two agree.
* Raw heap pointers (`ObjRef`) are modelled as indices into an arena that
  only grows; pointer equality becomes index equality, and two distinct
  allocations never compare equal, exactly as for `malloc` results.
* Every loop takes a fuel argument (structural recursion on `Nat`) so all
  definitions compute by kernel reduction; wrappers pass fuel that provably
  exceeds the number of iterations the source's loops can make.
-/

namespace Lox

/-- Source position `(line, col)`. The source stores these as `u16`; they are
modelled as `Nat` (the programs in this file stay far below 65536 lines). -/
structure Line where
  line : Nat
  col : Nat
deriving DecidableEq, Repr

/-- Mirrors `Line::advance`: newline bumps the line and resets the column,
anything else bumps the column. -/
def Line.advance (l : Line) (c : Char) : Line :=
  if c = '\n' then { line := l.line + 1, col := 1 } else { l with col := l.col + 1 }

/-- Mirrors `TokenType` from `compiler/scanner.rs` (including the source's
spelling `Escamation`). -/
inductive TokenType where
  | LeftParen | RightParen | LeftBrace | RightBrace | Comma | Dot | Minus | Plus
  | Semicolon | Slash | Star
  | Escamation | EscamationEquals | Equals | EqualsEquals
  | Greater | GreaterEqual | Less | LessEqual
  | Identifier | StringLiteral | NumberLiteral
  | And | Or | If | Else | True | False | For | While | Fn | Return | Let | Null | Print
  | Error | End
deriving DecidableEq, Repr

/-- Mirrors `Token`; `contents` is the borrowed lexeme slice, modelled as the
list of its characters. -/
structure Token where
  token_type : TokenType
  contents : List Char
  line : Line
deriving DecidableEq, Repr

/-- Mirrors `Scanner`. The 2-lookahead `Peekable<char>` iterator is modelled
by the list `chars` of characters not yet consumed (`peek1` is its head,
`peek2` the element after); the pure Rust iterator with its two peek slots
has exactly this behaviour. `current`/`start` count characters. -/
structure Scanner where
  source : List Char
  chars : List Char
  start : Nat
  start_line : Line
  current : Nat
  line : Line
  string_nesting : Nat
deriving DecidableEq, Repr

/-- Mirrors `Scanner::new`. -/
def Scanner.new (source : List Char) : Scanner :=
  { source := source, chars := source, start := 0, start_line := ⟨1, 1⟩,
    current := 0, line := ⟨1, 1⟩, string_nesting := 0 }

/-- Mirrors `Peekable::peek1` on the scanner's iterator. -/
def Scanner.peek1 (s : Scanner) : Option Char := s.chars.head?

/-- Mirrors `Peekable::peek2` on the scanner's iterator. -/
def Scanner.peek2 (s : Scanner) : Option Char := s.chars.get? 1

/-- Mirrors `Scanner::at_end`: `current >= source.len()`. -/
def Scanner.at_end (s : Scanner) : Bool := s.source.length ≤ s.current

/-- Mirrors `Scanner::advance`: consume one character, updating `current`
and `line`; at the end of input it returns `none` and changes nothing. -/
def Scanner.advance (s : Scanner) : Option Char × Scanner :=
  match s.chars with
  | [] => (none, s)
  | c :: rest =>
      (some c, { s with chars := rest, current := s.current + 1, line := s.line.advance c })

/-- Mirrors `Scanner::new_token`: slice `source[start..current]` with the
stored start line. -/
def Scanner.new_token (s : Scanner) (token_type : TokenType) : Token :=
  { token_type := token_type,
    contents := (s.source.drop s.start).take (s.current - s.start),
    line := s.start_line }

/-- Mirrors `Scanner::new_error`: an `Error` token whose contents are the
message. -/
def Scanner.new_error (s : Scanner) (message : List Char) : Token :=
  { token_type := .Error, contents := message, line := s.start_line }

/-- Mirrors `Scanner::matches`: consume the character when it is next. -/
def Scanner.matches (val : Char) (s : Scanner) : Bool × Scanner :=
  match s.peek1 with
  | some c => if c = val then (true, (s.advance).2) else (false, s)
  | none => (false, s)

/-- The body of the `//` comment loop in `Scanner::skip_spaces`:
`while peek1 != Some('\n') && !at_end { advance }`. Fuel bounds the
iterations; each one consumes a character, so `chars.length` suffices. -/
def Scanner.lineCommentGo : Nat → Scanner → Scanner
  | 0, s => s
  | fuel + 1, s =>
      if s.peek1 ≠ some '\n' ∧ s.at_end = false then
        Scanner.lineCommentGo fuel (s.advance).2
      else s

/-- The body of the `/* ... */` loop in `Scanner::skip_spaces`:
`while !(peek1=='*' && peek2=='/') { advance; if at_end { return Err } }`,
then the two closing characters are consumed by the caller. `none` is the
"Unclosed multiline comment" early return. -/
def Scanner.blockCommentGo : Nat → Scanner → Option Scanner
  | 0, _ => none
  | fuel + 1, s =>
      if ¬(s.peek1 = some '*' ∧ s.peek2 = some '/') then
        let s := (s.advance).2
        if s.at_end then none else Scanner.blockCommentGo fuel s
      else some s

/-- Mirrors the outer loop of `Scanner::skip_spaces`. Whitespace characters
are the source's `'\t' | '\n' | '\x0C' | '\r' | ' '`. An `Except` error is
the in-band "Unclosed multiline comment" message. -/
def Scanner.skipSpacesGo : Nat → Scanner → Except (List Char) Scanner
  | 0, s => .ok s
  | fuel + 1, s =>
      match s.peek1 with
      | some c =>
          if c = '\t' ∨ c = '\n' ∨ c = '\x0C' ∨ c = '\r' ∨ c = ' ' then
            Scanner.skipSpacesGo fuel (s.advance).2
          else if c = '/' then
            match s.peek2 with
            | some '/' =>
                Scanner.skipSpacesGo fuel (Scanner.lineCommentGo (s.chars.length + 1) s)
            | some '*' =>
                let s := { s with start_line := s.line }
                let s := (s.advance).2
                let s := (s.advance).2
                match Scanner.blockCommentGo (s.chars.length + 1) s with
                | none => .error (String.toList ("Unclosed multiline comment"))
                | some s =>
                    let s := (s.advance).2
                    let s := (s.advance).2
                    Scanner.skipSpacesGo fuel s
            | _ => .ok s
          else .ok s
      | none => .ok s

/-- Mirrors `Scanner::skip_spaces` with fuel chosen above any possible
iteration count (each outer iteration consumes at least one character). -/
def Scanner.skip_spaces (s : Scanner) : Except (List Char) Scanner :=
  Scanner.skipSpacesGo (s.chars.length + 1) s

/-- The digit-run loop `while peek1 is ascii digit { advance }` used by
`Scanner::comsume_number`. -/
def Scanner.digitsGo : Nat → Scanner → Scanner
  | 0, s => s
  | fuel + 1, s =>
      match s.peek1 with
      | some c => if c.isDigit then Scanner.digitsGo fuel (s.advance).2 else s
      | none => s

/-- Mirrors `Scanner::comsume_number` (the source's spelling), including its
exact lookahead behaviour: `matches('.')` consumes a dot whenever one is
next, and only then is `peek2` — the second character after the dot —
tested for being a digit before the fractional digit run. -/
def Scanner.comsume_number (s : Scanner) : Token × Scanner :=
  let s := Scanner.digitsGo (s.chars.length + 1) s
  let (m, s) := Scanner.matches '.' s
  let s :=
    if m ∧ (s.peek2.map Char.isDigit).getD false then
      Scanner.digitsGo (s.chars.length + 1) s
    else s
  (s.new_token .NumberLiteral, s)

/-- The loop of `Scanner::comsume_string`:
`while !matches('"') { advance; if at_end { return error } }`. -/
def Scanner.stringGo : Nat → Scanner → Bool × Scanner
  | 0, s => (false, s)
  | fuel + 1, s =>
      let (m, s) := Scanner.matches '"' s
      if m then (true, s)
      else
        let s := (s.advance).2
        if s.at_end then (false, s) else Scanner.stringGo fuel s

/-- Mirrors `Scanner::comsume_string`; the lexeme keeps its quotes. -/
def Scanner.comsume_string (s : Scanner) : Token × Scanner :=
  match Scanner.stringGo (s.chars.length + 1) s with
  | (true, s) => (s.new_token .StringLiteral, s)
  | (false, s) => (s.new_error (String.toList ("Unclosed string")), s)

/-- Mirrors `Scanner::get_byte` (an unchecked raw byte read; in-bounds for
every call the scanner makes, modelled with a null fallback). -/
def Scanner.get_byte (s : Scanner) (i : Nat) : Char := s.source.getD i '\x00'

/-- Mirrors `Scanner::check_keyword`. -/
def Scanner.check_keyword (s : Scanner) (start_offset : Nat) (val : List Char)
    (token_type : TokenType) : TokenType :=
  if val.length = s.current - (s.start + start_offset) then
    if (s.source.drop (s.start + start_offset)).take (s.current - (s.start + start_offset)) = val
    then token_type
    else .Identifier
  else .Identifier

/-- The identifier loop `while peek1 is alphanumeric { advance }`. The
source uses Unicode `is_alphanumeric`; ASCII programs never see the
difference. -/
def Scanner.identGo : Nat → Scanner → Scanner
  | 0, s => s
  | fuel + 1, s =>
      match s.peek1 with
      | some c => if c.isAlphanum then Scanner.identGo fuel (s.advance).2 else s
      | none => s

/-- Mirrors `Scanner::comsume_ident` with its keyword dispatch on the first
byte (and second byte for `f`). -/
def Scanner.comsume_ident (s : Scanner) : Token × Scanner :=
  let s := Scanner.identGo (s.chars.length + 1) s
  let token_type :=
    if s.get_byte s.start = 'a' then s.check_keyword 1 (String.toList ("nd")) .And
    else if s.get_byte s.start = 'o' then s.check_keyword 1 (String.toList ("r")) .Or
    else if s.get_byte s.start = 'i' then s.check_keyword 1 (String.toList ("f")) .If
    else if s.get_byte s.start = 'e' then s.check_keyword 1 (String.toList ("lse")) .Else
    else if s.get_byte s.start = 't' then s.check_keyword 1 (String.toList ("rue")) .True
    else if s.get_byte s.start = 'f' then
      if s.get_byte (s.start + 1) = 'a' then s.check_keyword 2 (String.toList ("lse")) .False
      else if s.get_byte (s.start + 1) = 'o' then s.check_keyword 2 (String.toList ("r")) .For
      else if s.get_byte (s.start + 1) = 'n' then s.check_keyword 2 [] .Fn
      else .Identifier
    else if s.get_byte s.start = 'r' then s.check_keyword 1 (String.toList ("eturn")) .Return
    else if s.get_byte s.start = 'l' then s.check_keyword 1 (String.toList ("et")) .Let
    else if s.get_byte s.start = 'n' then s.check_keyword 1 (String.toList ("ull")) .Null
    else if s.get_byte s.start = 'p' then s.check_keyword 1 (String.toList ("rint")) .Print
    else .Identifier
  (s.new_token token_type, s)

/-- Mirrors `Scanner::next`, the token dispatcher. -/
def Scanner.next (s : Scanner) : Token × Scanner :=
  match s.skip_spaces with
  | .error e => (s.new_error e, s)
  | .ok s =>
      let s := { s with start := s.current, start_line := s.line }
      match s.advance with
      | (none, s) => (s.new_token .End, s)
      | (some c, s) =>
          if c = '(' then (s.new_token .LeftParen, s)
          else if c = ')' then (s.new_token .RightParen, s)
          else if c = '{' then (s.new_token .LeftBrace, s)
          else if c = '}' then (s.new_token .RightBrace, s)
          else if c = ',' then (s.new_token .Comma, s)
          else if c = '.' then (s.new_token .Dot, s)
          else if c = '+' then (s.new_token .Plus, s)
          else if c = '-' then (s.new_token .Minus, s)
          else if c = ';' then (s.new_token .Semicolon, s)
          else if c = '/' then (s.new_token .Slash, s)
          else if c = '*' then (s.new_token .Star, s)
          else if c = '!' then
            let (m, s) := Scanner.matches '=' s
            (s.new_token (if m then .EscamationEquals else .Escamation), s)
          else if c = '=' then
            let (m, s) := Scanner.matches '=' s
            (s.new_token (if m then .EqualsEquals else .Equals), s)
          else if c = '>' then
            let (m, s) := Scanner.matches '=' s
            (s.new_token (if m then .GreaterEqual else .Greater), s)
          else if c = '<' then
            let (m, s) := Scanner.matches '=' s
            (s.new_token (if m then .LessEqual else .Less), s)
          else if c = '"' then s.comsume_string
          else if c.isDigit then s.comsume_number
          else if c.isAlpha then s.comsume_ident
          else (s.new_error (String.toList ("Unknown character")), s)

/-- Mirrors the `Opcode` enum from `opcode.rs` (discriminants 0..30,
`Unknown` for everything else). -/
inductive Opcode where
  | Return | Constant | LongConstant | Negate | Add | Subtract | Multiply | Divide
  | Null | True | False | Not | Equal | Greater | Less | Print | Pop
  | DefineGlobalVariable | DefineLongGlobalVariable
  | GetGlobalVariable | GetLongGlobalVariable
  | SetGlobal | SetLongGlobal
  | GetLocal | GetLongLocal | SetLocal | SetLongLocal
  | Jump | JumpIfFalse | JumpBack | Modolo
  | Unknown
deriving DecidableEq, Repr

/-- Mirrors `impl From<Opcode> for u8` (the declared discriminants). -/
def Opcode.toNat : Opcode → Nat
  | .Return => 0
  | .Constant => 1
  | .LongConstant => 2
  | .Negate => 3
  | .Add => 4
  | .Subtract => 5
  | .Multiply => 6
  | .Divide => 7
  | .Null => 8
  | .True => 9
  | .False => 10
  | .Not => 11
  | .Equal => 12
  | .Greater => 13
  | .Less => 14
  | .Print => 15
  | .Pop => 16
  | .DefineGlobalVariable => 17
  | .DefineLongGlobalVariable => 18
  | .GetGlobalVariable => 19
  | .GetLongGlobalVariable => 20
  | .SetGlobal => 21
  | .SetLongGlobal => 22
  | .GetLocal => 23
  | .GetLongLocal => 24
  | .SetLocal => 25
  | .SetLongLocal => 26
  | .Jump => 27
  | .JumpIfFalse => 28
  | .JumpBack => 29
  | .Modolo => 30
  | .Unknown => 31

/-- Mirrors `impl From<u8> for Opcode`: listed discriminants map back, every
other byte is `Unknown`. -/
def Opcode.fromByte (n : Nat) : Opcode :=
  if n = 0 then .Return
  else if n = 1 then .Constant
  else if n = 2 then .LongConstant
  else if n = 3 then .Negate
  else if n = 4 then .Add
  else if n = 5 then .Subtract
  else if n = 6 then .Multiply
  else if n = 7 then .Divide
  else if n = 8 then .Null
  else if n = 9 then .True
  else if n = 10 then .False
  else if n = 11 then .Not
  else if n = 12 then .Equal
  else if n = 13 then .Greater
  else if n = 14 then .Less
  else if n = 15 then .Print
  else if n = 16 then .Pop
  else if n = 17 then .DefineGlobalVariable
  else if n = 18 then .DefineLongGlobalVariable
  else if n = 19 then .GetGlobalVariable
  else if n = 20 then .GetLongGlobalVariable
  else if n = 21 then .SetGlobal
  else if n = 22 then .SetLongGlobal
  else if n = 23 then .GetLocal
  else if n = 24 then .GetLongLocal
  else if n = 25 then .SetLocal
  else if n = 26 then .SetLongLocal
  else if n = 27 then .Jump
  else if n = 28 then .JumpIfFalse
  else if n = 29 then .JumpBack
  else if n = 30 then .Modolo
  else .Unknown

/-- `ObjRef` is a raw pointer to a heap allocation in the source; it is
modelled as the index of the allocation in a grow-only arena, so that
pointer equality becomes index equality and two distinct allocations never
compare equal. -/
abbrev ObjRef := Nat

/-- The arena of heap allocations (every allocation in the source is a
`String`; its `ObjTy` tag is therefore always `Str`). -/
structure Heap where
  objs : List (List Char)
deriving DecidableEq, Repr

/-- Mirrors `ObjRef::new`: a fresh allocation, never equal to an earlier
one. -/
def Heap.alloc (h : Heap) (val : List Char) : ObjRef × Heap :=
  (h.objs.length, ⟨h.objs ++ [val]⟩)

/-- Mirrors `ObjRef::as_ref::<String>` (all objects are strings, so the tag
check always succeeds). -/
def Heap.get (h : Heap) (r : ObjRef) : List Char := h.objs.getD r []

/-- Synonym used inside the `Value` declaration, where the plain name
`Bool` would resolve to the constructor being declared. -/
abbrev BoolTy := Bool

/-- The model of `f64`: an exact fraction `num / den`, kept unreduced. On
the small decimal values every program in this file computes with, `f64`
arithmetic is exact and agrees with exact rational arithmetic, so `Frac`
ops below mirror the source's float ops faithfully there. (No NaN or
infinity is ever produced: no theorem divides by zero.) -/
structure Frac where
  num : Int
  den : Nat
deriving DecidableEq, Repr

/-- `f64` addition (exact here). -/
def Frac.add (a b : Frac) : Frac := ⟨a.num * b.den + b.num * a.den, a.den * b.den⟩

/-- `f64` subtraction. -/
def Frac.sub (a b : Frac) : Frac := ⟨a.num * b.den - b.num * a.den, a.den * b.den⟩

/-- `f64` multiplication. -/
def Frac.mul (a b : Frac) : Frac := ⟨a.num * b.num, a.den * b.den⟩

/-- `f64` negation. -/
def Frac.neg (a : Frac) : Frac := ⟨-a.num, a.den⟩

/-- `f64` division (division by zero, which would give an infinity or NaN,
is never evaluated by the theorems in this file). -/
def Frac.div (a b : Frac) : Frac :=
  if b.num < 0 then ⟨-(a.num * b.den), a.den * b.num.natAbs⟩
  else ⟨a.num * b.den, a.den * b.num.natAbs⟩

/-- `f64` equality `==` on exact values: equality of the represented
rationals. -/
def Frac.beq (a b : Frac) : BoolTy := a.num * b.den == b.num * a.den

/-- `f64` strict order on exact values. -/
def Frac.blt (a b : Frac) : BoolTy := decide (a.num * (b.den : Int) < b.num * (a.den : Int))

/-- Truncation toward zero (`Int.tdiv` is T-division), as Rust `%`'s
quotient. -/
def Frac.trunc (q : Frac) : Int := Int.tdiv q.num (Int.ofNat q.den)

/-- Rust `f64 % f64`: the truncated remainder `a - b * trunc(a / b)`. -/
def Frac.fmod (a b : Frac) : Frac := Frac.sub a (Frac.mul b ⟨(Frac.div a b).trunc, 1⟩)

/-- Mirrors `Value` from `chunk.rs`. -/
inductive Value where
  | Number (n : Frac)
  | Bool (b : BoolTy)
  | Null
  | Obj (r : ObjRef)
deriving DecidableEq, Repr

/-- Mirrors `PartialEq for Value`. Numbers compare by `f64` value (no NaN
is ever produced by the programs considered here). In the `Obj` case the
source compares the type tags (always `Str` here) and then the raw
pointers, i.e. the arena indices. -/
def Value.beq : Value → Value → BoolTy
  | .Number a, .Number b => Frac.beq a b
  | .Bool a, .Bool b => a == b
  | .Obj a, .Obj b => a == b
  | .Null, .Null => true
  | _, _ => false

/-- Whether a value is a heap-object reference — the
`if let Value::Obj(name) = constant` guard of the VM's global-variable
arms (the only case in which those arms go on to pop). -/
def Value.isObj : Value → BoolTy
  | .Obj _ => true
  | _ => false

/-- Mirrors `Chunk`. `code` holds `u8` bytes (kept `< 256` by `push`,
matching the `Vec<u8>` type). -/
structure Chunk where
  code : List Nat
  constants : List Value
  strings : List ObjRef
  objects : List ObjRef
  lines : List Line
deriving DecidableEq, Repr

/-- Mirrors `Chunk::new` / `Chunk::EMPTY`. -/
def Chunk.new : Chunk := ⟨[], [], [], [], []⟩

/-- Mirrors `Chunk::push`; the `impl Into<u8>` argument conversion is the
`% 256` (no push site ever exceeds it). -/
def Chunk.push (c : Chunk) (byte : Nat) (line : Line) : Chunk :=
  { c with code := c.code ++ [byte % 256], lines := c.lines ++ [line] }

/-- Mirrors `Chunk::len`. -/
def Chunk.len (c : Chunk) : Nat := c.code.length

/-- Mirrors `Chunk::make_constant`. -/
def Chunk.make_constant (c : Chunk) (constant : Value) : Nat × Chunk :=
  (c.constants.length, { c with constants := c.constants ++ [constant] })

/-- Mirrors `Chunk::make_string`: allocate a FRESH heap object (no interning
here — contrast `Runtime::new_string`), record it in `objects` and
`strings`, and add an `Obj` constant. -/
def Chunk.make_string (c : Chunk) (h : Heap) (val : List Char) : Nat × Chunk × Heap :=
  let (reference, h) := h.alloc val
  let c := { c with objects := c.objects ++ [reference], strings := c.strings ++ [reference] }
  let (id, c) := c.make_constant (Value.Obj reference)
  (id, c, h)

/-- Mirrors `Chunk::push_constant`: short opcode + 1 byte for ids ≤ 255,
long opcode + big-endian 3 bytes otherwise. -/
def Chunk.push_constant (c : Chunk) (id : Nat) (line : Line) (short_op long_op : Opcode) : Chunk :=
  if id ≤ 255 then
    (c.push short_op.toNat line).push id line
  else
    ((((c.push long_op.toNat line).push ((id >>> 16) % 256) line).push
      ((id >>> 8) % 256) line).push (id % 256) line)

/-- Mirrors `Chunk::constant` (an unchecked index in the source; in bounds
for every compiled chunk, modelled with a `Null` fallback). -/
def Chunk.constant (c : Chunk) (idx : Nat) : Value := c.constants.getD idx .Null

/-- Mirrors `Precedence` from `compiler/precedence.rs`. -/
inductive Precedence where
  | None | Assignment | Or | And | Equality | Comparison | Term | Factor | Unary | Call | Primary
deriving DecidableEq, Repr

/-- The `as u8` discriminant of a `Precedence` used for comparisons. -/
def Precedence.toNat : Precedence → Nat
  | .None => 0
  | .Assignment => 1
  | .Or => 2
  | .And => 3
  | .Equality => 4
  | .Comparison => 5
  | .Term => 6
  | .Factor => 7
  | .Unary => 8
  | .Call => 9
  | .Primary => 10

/-- Mirrors `Precedence::next`. -/
def Precedence.next : Precedence → Precedence
  | .None => .Assignment
  | .Assignment => .Or
  | .Or => .And
  | .And => .Equality
  | .Equality => .Comparison
  | .Comparison => .Term
  | .Term => .Factor
  | .Factor => .Unary
  | .Unary => .Call
  | .Call => .Primary
  | .Primary => .Primary

/-- The identifiers of the prefix parse functions that appear in the rule
table or in `Parser` (the source stores `fn` pointers; an enum of rule ids
dispatched by the parser is semantically identical). `variableFn` stands
for `Parser::variable`, a reserved word in Lean. -/
inductive PrefixFn where
  | grouping | unary | string | number | variableFn | literal
deriving DecidableEq, Repr

/-- The identifiers of the infix parse functions (`Parser::binary`,
`Parser::and`, `Parser::or`). -/
inductive InfixFn where
  | binary | and | or
deriving DecidableEq, Repr

/-- Mirrors `ParseRule`; `pfx`/`ifx` stand for the source's field names
(reserved words in Lean). -/
structure ParseRule where
  pfx : Option PrefixFn
  ifx : Option InfixFn
  precedence : Precedence
deriving DecidableEq, Repr

/-- Mirrors `get_rule` from `compiler/parse_rules.rs` — the exact table,
including the rows for `Identifier`, `And` and `Or`, which carry no parse
functions at all in the source. -/
def get_rule : TokenType → ParseRule
  | .LeftParen => ⟨some .grouping, none, .None⟩
  | .RightParen => ⟨none, none, .None⟩
  | .LeftBrace => ⟨none, none, .None⟩
  | .RightBrace => ⟨none, none, .None⟩
  | .Comma => ⟨none, none, .None⟩
  | .Dot => ⟨none, none, .None⟩
  | .Minus => ⟨some .unary, some .binary, .Term⟩
  | .Plus => ⟨none, some .binary, .Term⟩
  | .Semicolon => ⟨none, none, .None⟩
  | .Slash => ⟨none, some .binary, .Factor⟩
  | .Star => ⟨none, some .binary, .Factor⟩
  | .Escamation => ⟨some .unary, none, .None⟩
  | .EscamationEquals => ⟨none, none, .None⟩
  | .Equals => ⟨none, none, .None⟩
  | .EqualsEquals => ⟨none, some .binary, .Comparison⟩
  | .Greater => ⟨none, some .binary, .Comparison⟩
  | .GreaterEqual => ⟨none, some .binary, .Comparison⟩
  | .Less => ⟨none, some .binary, .Comparison⟩
  | .LessEqual => ⟨none, some .binary, .Comparison⟩
  | .Identifier => ⟨none, none, .None⟩
  | .StringLiteral => ⟨some .string, none, .None⟩
  | .NumberLiteral => ⟨some .number, none, .None⟩
  | .And => ⟨none, none, .None⟩
  | .Or => ⟨none, none, .None⟩
  | .If => ⟨none, none, .None⟩
  | .Else => ⟨none, none, .None⟩
  | .True => ⟨some .literal, none, .None⟩
  | .False => ⟨some .literal, none, .None⟩
  | .For => ⟨none, none, .None⟩
  | .While => ⟨none, none, .None⟩
  | .Fn => ⟨none, none, .None⟩
  | .Print => ⟨none, none, .None⟩
  | .Return => ⟨none, none, .None⟩
  | .Let => ⟨none, none, .None⟩
  | .Null => ⟨some .literal, none, .None⟩
  | .Error => ⟨none, none, .None⟩
  | .End => ⟨none, none, .None⟩

/-- Mirrors `Local` from `compiler.rs`. -/
structure Local where
  ident : Token
  depth : Nat
deriving DecidableEq, Repr

/-- Mirrors `Parser` plus its `Compiler` substate (`locals`, `depth`). The
`heap` is the arena behind `Chunk::make_string` allocations, and `log` is
the sequence of diagnostic messages printed by `error_at` (the model keeps
the message literal and drops the line/lexeme decoration and interpolated
arguments of the printed line). -/
structure ParserState where
  scanner : Scanner
  current : Option Token
  previous : Option Token
  error : Bool
  panic : Bool
  compiling_chunk : Chunk
  locals : List Local
  depth : Nat
  heap : Heap
  log : List (List Char)
deriving DecidableEq, Repr

/-- Diagnostic messages of `compiler.rs`, exactly as spelt there. -/
def msgExpectedExpression : List Char := String.toList ("Expected expression")

/-- Message of `parse_precedence` for a stray `=`. -/
def msgInvalidAssignment : List Char := String.toList ("Invalid assignment target.")

/-- Message of `grouping`. -/
def msgExpectedClosingParen : List Char := String.toList ("Expected closing \x27)\x27")

/-- Message of `print_statement` for the opening paren. -/
def msgPrintLeftParen : List Char :=
  String.toList ("Print statements must have a \x27(\x27 after the print keyword")

/-- Message of `print_statement` for the closing paren. -/
def msgPrintRightParen : List Char := String.toList ("Print statements must end with a \x27)\x27")

/-- Message of `print_statement` for the semicolon. -/
def msgPrintSemicolon : List Char := String.toList ("Print statements must end with a \x27;\x27")

/-- Message of `expression_statement`. -/
def msgStatementSemicolon : List Char := String.toList ("Statements must end with a \x27;\x27")

/-- Message of `block`. -/
def msgBlocksEnd : List Char := String.toList ("Blocks should end with \x27\x7d\x27.")

/-- Message of `if_statement`. -/
def msgIfBlock : List Char := String.toList ("If statements must contain a block")

/-- Message of `while_statement`. -/
def msgWhileBlock : List Char := String.toList ("While statements must contain a block")

/-- Message of `patch_jump` and `jump_back`. -/
def msgJumpTooBig : List Char := String.toList ("Jump too big")

/-- Message of `variable_declaration` via `parse_variable`. -/
def msgExpectedVariableName : List Char := String.toList ("Expected variable name.")

/-- Message of `variable_declaration` for the semicolon. -/
def msgVarDeclSemicolon : List Char :=
  String.toList ("Expected \x27;\x27 after variable declaration")

namespace Parser

/-- Mirrors `Parser::new` (fresh flags, no tokens yet, default compiler). -/
def new (source : List Char) (chunk : Chunk) (heap : Heap) : ParserState :=
  { scanner := Scanner.new source, current := none, previous := none,
    error := false, panic := false, compiling_chunk := chunk,
    locals := [], depth := 0, heap := heap, log := [] }

/-- Mirrors `Parser::check`. -/
def check (token_type : TokenType) (p : ParserState) : Bool :=
  match p.current with
  | some token => token.token_type = token_type
  | none => false

/-- Mirrors `Parser::at_end`: true when `current` is `None` or the `End`
token. -/
def at_end (p : ParserState) : Bool :=
  match p.current with
  | some token => token.token_type = .End
  | none => true

/-- Mirrors `Parser::error_at`: nothing happens while panicking, otherwise
the diagnostic is printed (the model records the message). -/
def error_at (message : List Char) (p : ParserState) : ParserState :=
  if p.panic then p else { p with log := p.log ++ [message] }

/-- Mirrors `Parser::error_at_current`: only acts when `current` is set. -/
def error_at_current (message : List Char) (p : ParserState) : ParserState :=
  match p.current with
  | some _ =>
      let p := error_at message p
      { p with error := true, panic := true }
  | none => p

/-- Mirrors `Parser::error_at_previous`. -/
def error_at_previous (message : List Char) (p : ParserState) : ParserState :=
  match p.previous with
  | some _ =>
      let p := error_at message p
      { p with error := true, panic := true }
  | none => p

/-- The loop of `Parser::advance`: pull tokens, surfacing `Error` tokens as
diagnostics and skipping past them. Each iteration consumes source
characters, so `chars.length + 1` fuel suffices. -/
def advanceGo : Nat → ParserState → ParserState
  | 0, p => p
  | fuel + 1, p =>
      let (tok, sc) := p.scanner.next
      let p := { p with scanner := sc }
      if tok.token_type = .Error then
        let p := { p with current := some tok }
        advanceGo fuel (error_at_current tok.contents p)
      else
        { p with current := some tok }

/-- Mirrors `Parser::advance`. -/
def advance (p : ParserState) : ParserState :=
  let p := { p with previous := p.current, current := none }
  advanceGo (p.scanner.chars.length + 1) p

/-- Mirrors `Parser::matches` (`matches` is reserved syntax in Lean). -/
def matchesTok (token_type : TokenType) (p : ParserState) : Bool × ParserState :=
  if check token_type p then (true, advance p) else (false, p)

/-- Mirrors `Parser::emit_byte` (nothing is pushed when there is no
previous token). -/
def emit_byte (byte : Nat) (p : ParserState) : ParserState :=
  match p.previous with
  | some token => { p with compiling_chunk := p.compiling_chunk.push byte token.line }
  | none => p

/-- Mirrors `Parser::emit_bytes`. -/
def emit_bytes (byte1 byte2 : Nat) (p : ParserState) : ParserState :=
  match p.previous with
  | some token =>
      let c := p.compiling_chunk.push byte1 token.line
      { p with compiling_chunk := c.push byte2 token.line }
  | none => p

/-- Mirrors `Parser::emit_return`: a `Return` opcode, but only when a
previous token exists. -/
def emit_return (p : ParserState) : ParserState :=
  match p.previous with
  | some token =>
      { p with compiling_chunk := p.compiling_chunk.push Opcode.Return.toNat token.line }
  | none => p

/-- Mirrors `Parser::emit_constant`. -/
def emit_constant (value : Value) (p : ParserState) : ParserState :=
  match p.previous with
  | some token =>
      let (id, c) := p.compiling_chunk.make_constant value
      { p with compiling_chunk := c.push_constant id token.line .Constant .LongConstant }
  | none => p

/-- Mirrors `Parser::emit_string`. -/
def emit_string (value : List Char) (p : ParserState) : ParserState :=
  match p.previous with
  | some token =>
      let (id, c, h) := p.compiling_chunk.make_string p.heap value
      { p with heap := h,
               compiling_chunk := c.push_constant id token.line .Constant .LongConstant }
  | none => p

/-- Mirrors `Parser::consume`. -/
def consume (target : TokenType) (message : List Char) (p : ParserState) : ParserState :=
  if check target p then advance p else error_at_current message p

/-- Mirrors `Parser::resolve_local`: innermost (highest-index) local whose
identifier matches. -/
def resolve_local (name : Token) (p : ParserState) : Option Nat :=
  (p.locals.enum.reverse.find? (fun x => x.2.ident.contents == name.contents)).map (·.1)

/-- The digit-separator stripping and `f64::from_str` of `Parser::number`.
The numerals the scanner produces are `digits [ '.' digits ]`; their exact
decimal value is taken (identical to `f64` for the small numerals the
embedded programs contain). -/
def digitsToNat (cs : List Char) : Nat :=
  cs.foldl (fun acc c => acc * 10 + (c.toNat - '0'.toNat)) 0

/-- Decimal value of a numeral lexeme (after the underscore filter): the
exact value of `digits [ '.' digits ]`, which is what `f64::from_str`
returns for the short numerals the embedded programs contain. -/
def parseNumeral (cs : List Char) : Frac :=
  let cs := cs.filter (fun c => c ≠ '_')
  let intPart := cs.takeWhile Char.isDigit
  let rest := cs.drop intPart.length
  let fracPart := (rest.drop 1).takeWhile Char.isDigit
  ⟨Int.ofNat (digitsToNat intPart * 10 ^ fracPart.length + digitsToNat fracPart),
   10 ^ fracPart.length⟩

/-- Mirrors `Parser::number`. -/
def number (_can_assign : Bool) (p : ParserState) : ParserState :=
  match p.previous with
  | some token => emit_constant (Value.Number (parseNumeral token.contents)) p
  | none => p

/-- Mirrors `Parser::string`: strip the surrounding quotes and emit the
interned-in-chunk constant. -/
def string (_can_assign : Bool) (p : ParserState) : ParserState :=
  match p.previous with
  | some token =>
      emit_string ((token.contents.drop 1).take (token.contents.length - 2)) p
  | none => p

/-- Mirrors `Parser::literal`. -/
def literal (_can_assign : Bool) (p : ParserState) : ParserState :=
  match p.previous with
  | some token =>
      match token.token_type with
      | .True => emit_byte Opcode.True.toNat p
      | .False => emit_byte Opcode.False.toNat p
      | .Null => emit_byte Opcode.Null.toNat p
      | _ => p
  | none => p

/-- Mirrors `Parser::emit_jump`: opcode plus a `0xFFFF` placeholder; returns
the operand position `len - 2`. -/
def emit_jump (opcode : Opcode) (p : ParserState) : Nat × ParserState :=
  let p := emit_byte opcode.toNat p
  let p := emit_bytes 255 255 p
  (p.compiling_chunk.len - 2, p)

/-- Mirrors `Parser::patch_jump`: distance `len - start - 2`; error "Jump
too big" above `u16::MAX`, otherwise write the big-endian operand in
place. -/
def patch_jump (start : Nat) (p : ParserState) : ParserState :=
  let jump := p.compiling_chunk.len - start - 2
  if jump > 65535 then
    error_at_current msgJumpTooBig p
  else
    let code := (p.compiling_chunk.code.set start ((jump >>> 8) % 256)).set (start + 1) (jump % 256)
    { p with compiling_chunk := { p.compiling_chunk with code := code } }

/-- Mirrors `Parser::jump_back`: operand `len + 3 - to`, emitted after the
`JumpBack` opcode. -/
def jump_back (target : Nat) (p : ParserState) : ParserState :=
  let jump := p.compiling_chunk.len + 3 - target
  if jump > 65535 then
    error_at_current msgJumpTooBig p
  else
    let p := emit_byte Opcode.JumpBack.toNat p
    emit_bytes ((jump >>> 8) % 256) (jump % 256) p

/-- Mirrors `Parser::begin_scope`. -/
def begin_scope (p : ParserState) : ParserState := { p with depth := p.depth + 1 }

/-- The pop loop of `Parser::end_scope`. -/
def endScopeGo : Nat → ParserState → ParserState
  | 0, p => p
  | fuel + 1, p =>
      match p.locals.getLast? with
      | some last =>
          if p.depth < last.depth then
            let p := emit_byte Opcode.Pop.toNat p
            endScopeGo fuel { p with locals := p.locals.dropLast }
          else p
      | none => p

/-- Mirrors `Parser::end_scope`. -/
def end_scope (p : ParserState) : ParserState :=
  let p := { p with depth := p.depth - 1 }
  endScopeGo (p.locals.length + 1) p

/-- The loop of `Parser::synchronise_error`. -/
def synchroniseGo : Nat → ParserState → ParserState
  | 0, p => p
  | fuel + 1, p =>
      if at_end p = false then
        let prevSemi : Bool :=
          match p.previous with
          | some prev => prev.token_type = TokenType.Semicolon
          | none => false
        let statementStart : Bool :=
          match p.current with
          | some t =>
              t.token_type == TokenType.Fn || t.token_type == TokenType.Let ||
              t.token_type == TokenType.For || t.token_type == TokenType.If ||
              t.token_type == TokenType.Print || t.token_type == TokenType.Return
          | none => false
        if prevSemi then p
        else if statementStart then p
        else synchroniseGo fuel (advance p)
      else p

/-- Mirrors `Parser::synchronise_error` (each iteration consumes source
characters or reaches `End`). -/
def synchronise_error (p : ParserState) : ParserState :=
  synchroniseGo (p.scanner.chars.length + 2) { p with panic := false }

/-- Mirrors `Parser::declare_variable` (a compile-time local entry; nothing
at depth 0). -/
def declare_variable (token : Token) (p : ParserState) : ParserState :=
  if p.depth = 0 then p
  else { p with locals := p.locals ++ [{ ident := token, depth := p.depth }] }

/-- Mirrors `Parser::parse_variable`: consume the identifier; at depth 0
intern the name in the chunk and return its constant id and line. -/
def parse_variable (message : List Char) (p : ParserState) : Option (Nat × Line) × ParserState :=
  let p := consume .Identifier message p
  match p.previous with
  | some token =>
      if 0 < p.depth then (none, p)
      else
        let (id, c, h) := p.compiling_chunk.make_string p.heap token.contents
        (some (id, token.line), { p with compiling_chunk := c, heap := h })
  | none => (none, p)

/-- Mirrors `Parser::define_variable` (emits `DefineGlobalVariable` at depth
0 only). -/
def define_variable (index : Nat) (line : Line) (p : ParserState) : ParserState :=
  if 0 < p.depth then p
  else
    { p with compiling_chunk :=
        p.compiling_chunk.push_constant index line .DefineGlobalVariable .DefineLongGlobalVariable }

/-- The `Get`-emitting tail of `Parser::named_variable` (shared by the two
non-assignment paths of the `if`). -/
def namedVariableGet (localSlot : Option Nat) (index : Nat) (name : Token)
    (p : ParserState) : ParserState :=
  match localSlot with
  | some _ =>
      { p with compiling_chunk :=
          p.compiling_chunk.push_constant index name.line .GetLocal .GetLongLocal }
  | none =>
      { p with compiling_chunk :=
          p.compiling_chunk.push_constant index name.line .GetGlobalVariable .GetLongGlobalVariable }

mutual

/-- Mirrors `Parser::parse_precedence`. Fuel only bounds recursion depth ×
iteration count; the wrappers pass more than any parse of the source text
can use. -/
def parse_precedence : Nat → Precedence → ParserState → ParserState
  | 0, _, p => p
  | fuel + 1, precedence, p =>
      let p := advance p
      let prefixRule :=
        match p.previous with
        | some token => (get_rule token.token_type).pfx
        | none => none
      let can_assign : Bool := decide (precedence.toNat ≤ Precedence.Assignment.toNat)
      let p :=
        match prefixRule with
        | some rule => runPrefixFn fuel rule can_assign p
        | none => error_at_previous msgExpectedExpression p
      let p := infixGo fuel precedence can_assign p
      if can_assign && check .Equals p then error_at_current msgInvalidAssignment p
      else p

/-- The `while precedence <= get_rule(current).precedence` loop of
`parse_precedence`. The source `unwrap`s `current`, which cannot be `None`
after `advance`; the model falls back to an inert rule there. -/
def infixGo : Nat → Precedence → Bool → ParserState → ParserState
  | 0, _, _, p => p
  | fuel + 1, precedence, can_assign, p =>
      let currentRule :=
        match p.current with
        | some token => get_rule token.token_type
        | none => ⟨none, none, .None⟩
      if precedence.toNat ≤ currentRule.precedence.toNat then
        let p := advance p
        let infixRule :=
          match p.previous with
          | some token => (get_rule token.token_type).ifx
          | none => none
        let p :=
          match infixRule with
          | some rule => runInfixFn fuel rule can_assign p
          | none => error_at_previous msgExpectedExpression p
        infixGo fuel precedence can_assign p
      else p

/-- Dispatch of a prefix rule id to its parse function (the source calls
through a `fn` pointer). -/
def runPrefixFn : Nat → PrefixFn → Bool → ParserState → ParserState
  | 0, _, _, p => p
  | fuel + 1, rule, can_assign, p =>
      match rule with
      | .grouping => grouping fuel can_assign p
      | .unary => unary fuel can_assign p
      | .string => string can_assign p
      | .number => number can_assign p
      | .variableFn => variableFn fuel can_assign p
      | .literal => literal can_assign p

/-- Dispatch of an infix rule id to its parse function. -/
def runInfixFn : Nat → InfixFn → Bool → ParserState → ParserState
  | 0, _, _, p => p
  | fuel + 1, rule, can_assign, p =>
      match rule with
      | .binary => binary fuel can_assign p
      | .and => andFn fuel can_assign p
      | .or => orFn fuel can_assign p

/-- Mirrors `Parser::grouping`. -/
def grouping : Nat → Bool → ParserState → ParserState
  | 0, _, p => p
  | fuel + 1, _can_assign, p =>
      let p := expression fuel p
      consume .RightParen msgExpectedClosingParen p

/-- Mirrors `Parser::unary`. -/
def unary : Nat → Bool → ParserState → ParserState
  | 0, _, p => p
  | fuel + 1, _can_assign, p =>
      match p.previous with
      | some token =>
          let token_type := token.token_type
          let p := parse_precedence fuel .Unary p
          match token_type with
          | .Minus => emit_byte Opcode.Negate.toNat p
          | .Escamation => emit_byte Opcode.Not.toNat p
          | _ => p
      | none => p

/-- Mirrors `Parser::binary`: parse the right-hand side one precedence
higher, then emit the operator's opcode(s). The source also has an arm for
`TokenType::Percentage` emitting `Modolo`, but the scanner's `TokenType`
declares no such variant and no `%` is ever scanned, so that arm is dead
and omitted here. -/
def binary : Nat → Bool → ParserState → ParserState
  | 0, _, p => p
  | fuel + 1, _can_assign, p =>
      match p.previous with
      | some token =>
          let operator := token.token_type
          let rule := (get_rule operator).precedence
          let p := parse_precedence fuel rule.next p
          match operator with
          | .Plus => emit_byte Opcode.Add.toNat p
          | .Minus => emit_byte Opcode.Subtract.toNat p
          | .Star => emit_byte Opcode.Multiply.toNat p
          | .Slash => emit_byte Opcode.Divide.toNat p
          | .EqualsEquals => emit_byte Opcode.Equal.toNat p
          | .Greater => emit_byte Opcode.Greater.toNat p
          | .GreaterEqual => emit_bytes Opcode.Less.toNat Opcode.Not.toNat p
          | .Less => emit_byte Opcode.Less.toNat p
          | .LessEqual => emit_bytes Opcode.Greater.toNat Opcode.Not.toNat p
          | _ => p
      | none => p

/-- Mirrors `Parser::and` (reserved word in Lean): `JumpIfFalse` over the
right-hand side, `Pop`, right-hand side at `And`, patch. -/
def andFn : Nat → Bool → ParserState → ParserState
  | 0, _, p => p
  | fuel + 1, _can_assign, p =>
      let (jump_start, p) := emit_jump .JumpIfFalse p
      let p := emit_byte Opcode.Pop.toNat p
      let p := parse_precedence fuel .And p
      patch_jump jump_start p

/-- Mirrors `Parser::or`. -/
def orFn : Nat → Bool → ParserState → ParserState
  | 0, _, p => p
  | fuel + 1, _can_assign, p =>
      let (jump_start, p) := emit_jump .JumpIfFalse p
      let (jump_end, p) := emit_jump .Jump p
      let p := patch_jump jump_start p
      let p := emit_byte Opcode.Pop.toNat p
      let p := parse_precedence fuel .Or p
      patch_jump jump_end p

/-- Mirrors `Parser::variable` (reserved word in Lean). -/
def variableFn : Nat → Bool → ParserState → ParserState
  | 0, _, p => p
  | fuel + 1, can_assign, p =>
      match p.previous with
      | some token => named_variable fuel token can_assign p
      | none => p

/-- Mirrors `Parser::named_variable`: resolve a local slot, otherwise intern
the global's name; `=` after an l-value (when allowed) emits a `Set`,
anything else a `Get`. -/
def named_variable : Nat → Token → Bool → ParserState → ParserState
  | 0, _, _, p => p
  | fuel + 1, name, can_assign, p =>
      let localSlot := resolve_local name p
      let (index, p) :=
        match localSlot with
        | some i => (i, p)
        | none =>
            let (id, c, h) := p.compiling_chunk.make_string p.heap name.contents
            (id, { p with compiling_chunk := c, heap := h })
      if can_assign then
        let (m, p) := matchesTok .Equals p
        if m then
          let p := expression fuel p
          match localSlot with
          | some _ =>
              { p with compiling_chunk :=
                  p.compiling_chunk.push_constant index name.line .SetLocal .SetLongLocal }
          | none =>
              { p with compiling_chunk :=
                  p.compiling_chunk.push_constant index name.line .SetGlobal .SetLongGlobal }
        else namedVariableGet localSlot index name p
      else namedVariableGet localSlot index name p

/-- Mirrors `Parser::expression`. -/
def expression : Nat → ParserState → ParserState
  | 0, p => p
  | fuel + 1, p => parse_precedence fuel .Assignment p

/-- Mirrors `Parser::print_statement`. -/
def print_statement : Nat → ParserState → ParserState
  | 0, p => p
  | fuel + 1, p =>
      let p := consume .LeftParen msgPrintLeftParen p
      let p := expression fuel p
      let p := consume .RightParen msgPrintRightParen p
      let p := consume .Semicolon msgPrintSemicolon p
      emit_byte Opcode.Print.toNat p

/-- Mirrors `Parser::expression_statement`. -/
def expression_statement : Nat → ParserState → ParserState
  | 0, p => p
  | fuel + 1, p =>
      let p := expression fuel p
      let p := consume .Semicolon msgStatementSemicolon p
      emit_byte Opcode.Pop.toNat p

/-- Mirrors `Parser::statement`. -/
def statement : Nat → ParserState → ParserState
  | 0, p => p
  | fuel + 1, p =>
      let (m, p) := matchesTok .Print p
      if m then print_statement fuel p
      else
        let (m, p) := matchesTok .If p
        if m then if_statement fuel p
        else
          let (m, p) := matchesTok .While p
          if m then while_statement fuel p
          else
            let (m, p) := matchesTok .LeftBrace p
            if m then
              let p := begin_scope p
              let p := block fuel p
              end_scope p
            else expression_statement fuel p

/-- The declaration loop of `Parser::block`. -/
def blockGo : Nat → ParserState → ParserState
  | 0, p => p
  | fuel + 1, p =>
      if !check .RightBrace p && !check .End p then
        blockGo fuel (declaration fuel p)
      else p

/-- Mirrors `Parser::block`. -/
def block : Nat → ParserState → ParserState
  | 0, p => p
  | fuel + 1, p =>
      let p := blockGo fuel p
      consume .RightBrace msgBlocksEnd p

/-- Mirrors `Parser::if_statement`. -/
def if_statement : Nat → ParserState → ParserState
  | 0, p => p
  | fuel + 1, p =>
      let p := expression fuel p
      let (then_jump, p) := emit_jump .JumpIfFalse p
      let p := emit_byte Opcode.Pop.toNat p
      let p := consume .LeftBrace msgIfBlock p
      let p := begin_scope p
      let p := block fuel p
      let p := end_scope p
      let (else_jump, p) := emit_jump .Jump p
      let p := patch_jump then_jump p
      let p := emit_byte Opcode.Pop.toNat p
      let (m, p) := matchesTok .Else p
      let p :=
        if m then
          let p := consume .LeftBrace msgIfBlock p
          let p := begin_scope p
          let p := block fuel p
          end_scope p
        else p
      patch_jump else_jump p

/-- Mirrors `Parser::while_statement`: remember `loop_start`, compile the
condition and body, emit the back jump, patch the exit. -/
def while_statement : Nat → ParserState → ParserState
  | 0, p => p
  | fuel + 1, p =>
      let loop_start := p.compiling_chunk.len
      let p := expression fuel p
      let (exit, p) := emit_jump .JumpIfFalse p
      let p := emit_byte Opcode.Pop.toNat p
      let p := consume .LeftBrace msgWhileBlock p
      let p := begin_scope p
      let p := block fuel p
      let p := end_scope p
      let p := jump_back loop_start p
      patch_jump exit p

/-- Mirrors `Parser::variable_declaration`. -/
def variable_declaration : Nat → ParserState → ParserState
  | 0, p => p
  | fuel + 1, p =>
      let (global, p) := parse_variable msgExpectedVariableName p
      let token := p.previous
      let (m, p) := matchesTok .Equals p
      let p := if m then expression fuel p else emit_byte Opcode.Null.toNat p
      let p := consume .Semicolon msgVarDeclSemicolon p
      match global with
      | some (index, line) => define_variable index line p
      | none =>
          match token with
          | some t => declare_variable t p
          | none => p

/-- Mirrors `Parser::declaration` (including the synchronise-on-panic
step). -/
def declaration : Nat → ParserState → ParserState
  | 0, p => p
  | fuel + 1, p =>
      let (m, p) := matchesTok .Let p
      let p := if m then variable_declaration fuel p else statement fuel p
      if p.panic then synchronise_error p else p

/-- The `while current != End` loop of `Parser::compile`. -/
def compileLoopGo : Nat → ParserState → ParserState
  | 0, p => p
  | fuel + 1, p =>
      let continueLoop : Bool :=
        match p.current with
        | some token => !(token.token_type == TokenType.End)
        | none => false
      if continueLoop then compileLoopGo fuel (declaration fuel p)
      else p

end

/-- Mirrors `Parser::compile`: prime the token stream, parse declarations
to the end, emit the final return. The whole final parser state is
returned; the source's boolean result is `!error`. -/
def compile (source : List Char) (heap : Heap) : ParserState :=
  let p := new source Chunk.new heap
  let p := advance p
  let p := compileLoopGo ((source.length + 4) * (source.length + 4)) p
  emit_return p

end Parser

/-- Mirrors `InterpretError` from `errors.rs`. -/
inductive InterpretError where
  | CompileError
  | InterpretError
deriving DecidableEq, Repr

/-- Runtime diagnostic of the `binary_op!` macro and `Negate`. -/
def msgOperandsMustBeNumbers : List Char := String.toList ("Operands must be numbers")

/-- Runtime diagnostic of the `Add` arm. -/
def msgOperandsPlus : List Char :=
  String.toList ("Operands to \x27+\x27 must be numbers or strings")

/-- Runtime diagnostic of the `Not` arm. -/
def msgOperandMustBeBoolean : List Char := String.toList ("Operand must be a boolean")

/-- Runtime diagnostic of the `JumpIfFalse` arm. -/
def msgValueMustBeBoolean : List Char := String.toList ("Value must be a boolean")

/-- Diagnostic printed by `Runtime::pop_stack` on underflow. -/
def msgStackUnderflow : List Char := String.toList ("Stack underflow")

/-- Diagnostic of the `DefineGlobalVariable` arm (the source interpolates
the variable name; the model keeps the static text). -/
def msgAlreadyDefined : List Char := String.toList ("Variable is already defined.")

/-- Diagnostic of the `GetGlobalVariable` arm (name interpolation
dropped). -/
def msgUndefinedVariable : List Char := String.toList ("Undefined variable")

/-- Diagnostic of the `SetGlobal` arm (name interpolation dropped; the
source's spelling). -/
def msgAssignBeforeDefenition : List Char :=
  String.toList ("Attempt to assign to variable before defenition")

/-- Diagnostic of the `Unknown` arm. -/
def msgUnknownOpcode : List Char := String.toList ("Unknown opcode")

/-- The text printed for a `Print` whose `pop_stack` underflowed: the
`Debug` of the `Err` result. -/
def msgPrintedErr : List Char := String.toList ("Err(InterpretError)")

/-- Decimal digits of a natural number, most significant first. -/
def natDigits (n : Nat) : List Char := Nat.toDigits 10 n

/-- The fractional digits of `r / d` (with `r < d`), expanded while the
remainder is non-zero; fuel bounds the length. -/
def fracDigitsGo : Nat → Nat → Nat → List Char
  | 0, _, _ => []
  | fuel + 1, r, d =>
      if r = 0 then []
      else Nat.digitChar (r * 10 / d) :: fracDigitsGo fuel (r * 10 % d) d

/-- Modelled from the spec: `Value`'s `Debug` prints numbers with Rust's
`f64` `Display` ("bitwise-identical float formatting", a shortest
round-trip decimal — code external to `src/`, in the Rust standard
library). On the values the programs in this file produce (integers and
short terminating decimals held exactly by the `ℚ` model) that rendering
is the plain decimal expansion written here (long division works on the
unreduced fraction directly). -/
def fmtNumber (q : Frac) : List Char :=
  let sign : List Char := if q.num < 0 then ['-'] else []
  let intPart := q.num.natAbs / q.den
  let rem := q.num.natAbs % q.den
  if rem = 0 then sign ++ natDigits intPart
  else sign ++ natDigits intPart ++ '.' :: fracDigitsGo 20 rem q.den

/-- Mirrors `Debug for Value` (`Obj` prints the string contents via
`Debug for ObjRef`). -/
def fmtValue (h : Heap) : Value → List Char
  | .Number n => fmtNumber n
  | .Bool b => if b then String.toList ("true") else String.toList ("false")
  | .Null => String.toList ("null")
  | .Obj r => h.get r

/-- Lookup in the `globals` map (`AHashMap<String, Value>` modelled as an
association list keyed by name). -/
def globalsGet (g : List (List Char × Value)) (k : List Char) : Option Value :=
  (g.find? (fun e => e.1 == k)).map (·.2)

/-- Map update used for the occupied/vacant `Entry` insertions. -/
def globalsInsert (k : List Char) (v : Value) : List (List Char × Value) → List (List Char × Value)
  | [] => [(k, v)]
  | e :: rest => if e.1 == k then (k, v) :: rest else e :: globalsInsert k v rest

/-- Mirrors `Runtime` from `vm.rs`. The stack is a list with its bottom at
the head (`stack_top` is the length); `printed` records the payload of each
`Print` line (the logger's constant `program: Ok(..)` decoration dropped,
keeping the `Debug` text of the popped result); `rtLog` records runtime
diagnostics (`runtime_error!` messages and `pop_stack`'s underflow
print). -/
structure Runtime where
  chunk : Chunk
  ip : Nat
  stack : List Value
  objects : List ObjRef
  strings : List ObjRef
  globals : List (List Char × Value)
  heap : Heap
  printed : List (List Char)
  rtLog : List (List Char)
deriving DecidableEq, Repr

namespace Runtime

/-- Mirrors `Runtime::new`. -/
def new (chunk : Chunk) (heap : Heap) : Runtime :=
  { chunk := chunk, ip := 0, stack := [], objects := [], strings := [],
    globals := [], heap := heap, printed := [], rtLog := [] }

/-- Mirrors `Runtime::reset_stack` (the `Vec` keeps its storage; the
logical stack — base to `stack_top` — becomes empty). -/
def reset_stack (r : Runtime) : Runtime := { r with stack := [] }

/-- Mirrors `Runtime::free_objects`: pop and free every owned heap object
(the arena model keeps the freed contents; the dangling refs are never
used). -/
def free_objects (r : Runtime) : Runtime := { r with objects := [] }

/-- Mirrors `Runtime::reset`: install the new chunk, rewind `ip`, clear the
stack, free all objects, clear the intern set. `globals` is untouched. -/
def reset (r : Runtime) (chunk : Chunk) : Runtime :=
  let r := { r with chunk := chunk, ip := 0 }
  let r := r.reset_stack
  let r := r.free_objects
  { r with strings := [] }

/-- Mirrors `Runtime::new_string`: intern — return the existing object with
equal contents if the set has one, else allocate, own and record it. -/
def new_string (r : Runtime) (val : List Char) : ObjRef × Runtime :=
  match r.strings.find? (fun existing => r.heap.get existing == val) with
  | some existing => (existing, r)
  | none =>
      let (obj_ref, h) := r.heap.alloc val
      let r2 := { r with heap := h, objects := r.objects ++ [obj_ref] }
      (obj_ref, { r2 with strings := r2.strings ++ [obj_ref] })

/-- Mirrors `Runtime::read_byte`. Reading past the code is UB in the source
(raw pointer walk); the model returns 0 there, and no execution in this
file reaches it. -/
def read_byte (r : Runtime) : Nat × Runtime :=
  (r.chunk.code.getD r.ip 0, { r with ip := r.ip + 1 })

/-- Mirrors `Runtime::read_bytes`: big-endian accumulation. The source
folds with `value <<= 8; value ^= byte`; on `u8` bytes (always `< 256`,
the type of `Chunk::code`) the xor of the shifted accumulator with the
byte is exactly addition, which the model writes directly. -/
def read_bytes : Nat → Runtime → Nat × Runtime
  | 0, r => (0, r)
  | n + 1, r =>
      let (value, r) := read_bytes n r
      let (byte, r) := read_byte r
      (value * 256 + byte, r)

/-- Mirrors `Runtime::short_constant`. -/
def short_constant (r : Runtime) : Value × Runtime :=
  let (b, r) := read_byte r
  (r.chunk.constant b, r)

/-- Mirrors `Runtime::long_constant`. -/
def long_constant (r : Runtime) : Value × Runtime :=
  let (idx, r) := read_bytes 3 r
  (r.chunk.constant idx, r)

/-- Mirrors `Runtime::push_stack`. -/
def push_stack (value : Value) (r : Runtime) : Runtime :=
  { r with stack := r.stack ++ [value] }

/-- Mirrors `Runtime::set_stack` (an unchecked write by slot). -/
def set_stack (index : Nat) (value : Value) (r : Runtime) : Runtime :=
  { r with stack := r.stack.set index value }

/-- Mirrors `Runtime::pop_stack`: on underflow print "Stack underflow" and
return `Err(InterpretError)`, otherwise hand out the top value. -/
def pop_stack (r : Runtime) : Except InterpretError Value × Runtime :=
  match r.stack.getLast? with
  | none => (.error .InterpretError, { r with rtLog := r.rtLog ++ [msgStackUnderflow] })
  | some v => (.ok v, { r with stack := r.stack.dropLast })

/-- Mirrors `Runtime::peep_stack` (distance from the top). Reading outside
the stack is UB in the source; the model returns `none` there. -/
def peep_stack (distance : Nat) (r : Runtime) : Option Value :=
  r.stack.get? (r.stack.length - 1 - distance)

/-- Mirrors `Runtime::peep_bottom_stack` (distance from the bottom). -/
def peep_bottom_stack (distance : Nat) (r : Runtime) : Option Value :=
  r.stack.get? distance

/-- Mirrors the `runtime_error!` macro: print the diagnostic (with its line
decoration, dropped by the model) and reset the stack. -/
def runtimeError (msg : List Char) (r : Runtime) : Runtime :=
  { r with rtLog := r.rtLog ++ [msg], stack := [] }

/-- Mirrors the `binary_op!` macro: pop two operands; on two numbers push
`f` of them, otherwise report "Operands must be numbers" (reset stack) and
keep running. The `Bool` is false exactly when a pop underflowed, which
the `?` in the macro turns into an `Err` return. -/
def binary_op (f : Frac → Frac → Value) (r : Runtime) : Runtime × BoolTy :=
  let (b, r) := pop_stack r
  match b with
  | .error _ => (r, false)
  | .ok vb =>
      let (a, r) := pop_stack r
      match a with
      | .error _ => (r, false)
      | .ok va =>
          match va, vb with
          | .Number na, .Number nb => (push_stack (f na nb) r, true)
          | _, _ => (runtimeError msgOperandsMustBeNumbers r, true)

/-- The `get_str` helper of the `Add` arm (every `Obj` is a string). -/
def get_str (h : Heap) : Value → Option (List Char)
  | .Obj x => some (h.get x)
  | _ => none

/-- Result of the dispatch loop: `Return` gives `ok`, the three fatal sites
give `err`; `fuelOut` never occurs for the fuel the wrappers pass. -/
inductive VmOut where
  | ok | err | panicked | fuelOut
deriving DecidableEq, Repr

/-- Mirrors the dispatch `loop` of `Runtime::interpret`, one opcode per
fuel step. -/
def interpretGo : Nat → Runtime → Runtime × VmOut
  | 0, r => (r, .fuelOut)
  | fuel + 1, r =>
      let (instruction, r) := read_byte r
      match Opcode.fromByte instruction with
      | .Unknown => interpretGo fuel { r with rtLog := r.rtLog ++ [msgUnknownOpcode] }
      | .Constant =>
          let (constant, r) := short_constant r
          interpretGo fuel (push_stack constant r)
      | .LongConstant =>
          let (constant, r) := long_constant r
          interpretGo fuel (push_stack constant r)
      | .Return => (r, .ok)
      | .Negate =>
          let (input, r) := pop_stack r
          match input with
          | .error _ => (r, .err)
          | .ok (.Number n) => interpretGo fuel (push_stack (.Number (Frac.neg n)) r)
          | .ok _ => interpretGo fuel (runtimeError msgOperandsMustBeNumbers r)
      | .Add =>
          let (b, r) := pop_stack r
          match b with
          | .error _ => (r, .err)
          | .ok vb =>
              let (a, r) := pop_stack r
              match a with
              | .error _ => (r, .err)
              | .ok va =>
                  match va, vb with
                  | .Number na, .Number nb =>
                      interpretGo fuel (push_stack (.Number (Frac.add na nb)) r)
                  | _, _ =>
                      match get_str r.heap vb, get_str r.heap va with
                      | some sb, some sa =>
                          let (obj_ref, r) := new_string r (sa ++ sb)
                          interpretGo fuel (push_stack (.Obj obj_ref) r)
                      | _, _ => interpretGo fuel (runtimeError msgOperandsPlus r)
      | .Subtract =>
          match binary_op (fun a b => .Number (Frac.sub a b)) r with
          | (r, true) => interpretGo fuel r
          | (r, false) => (r, .err)
      | .Multiply =>
          match binary_op (fun a b => .Number (Frac.mul a b)) r with
          | (r, true) => interpretGo fuel r
          | (r, false) => (r, .err)
      | .Divide =>
          match binary_op (fun a b => .Number (Frac.div a b)) r with
          | (r, true) => interpretGo fuel r
          | (r, false) => (r, .err)
      | .Modolo =>
          match binary_op (fun a b => .Number (Frac.fmod a b)) r with
          | (r, true) => interpretGo fuel r
          | (r, false) => (r, .err)
      | .Null => interpretGo fuel (push_stack .Null r)
      | .True => interpretGo fuel (push_stack (.Bool true) r)
      | .False => interpretGo fuel (push_stack (.Bool false) r)
      | .Not =>
          let (input, r) := pop_stack r
          match input with
          | .error _ => (r, .err)
          | .ok (.Bool x) => interpretGo fuel (push_stack (.Bool (!x)) r)
          | .ok _ => interpretGo fuel (runtimeError msgOperandMustBeBoolean r)
      | .Equal =>
          let (b, r) := pop_stack r
          match b with
          | .error _ => (r, .err)
          | .ok vb =>
              let (a, r) := pop_stack r
              match a with
              | .error _ => (r, .err)
              | .ok va => interpretGo fuel (push_stack (.Bool (Value.beq va vb)) r)
      | .Greater =>
          match binary_op (fun a b => .Bool (Frac.blt b a)) r with
          | (r, true) => interpretGo fuel r
          | (r, false) => (r, .err)
      | .Less =>
          match binary_op (fun a b => .Bool (Frac.blt a b)) r with
          | (r, true) => interpretGo fuel r
          | (r, false) => (r, .err)
      | .Print =>
          let (res, r) := pop_stack r
          let text := match res with
            | .ok v => fmtValue r.heap v
            | .error _ => msgPrintedErr
          interpretGo fuel { r with printed := r.printed ++ [text] }
      | .Pop =>
          let (_, r) := pop_stack r
          interpretGo fuel r
      | .DefineGlobalVariable | .DefineLongGlobalVariable =>
          let (constant, r) :=
            if Opcode.fromByte instruction = .DefineGlobalVariable then short_constant r
            else long_constant r
          match constant with
          | .Obj nameRef =>
              let name := r.heap.get nameRef
              let (value, r) := pop_stack r
              match value with
              | .error _ => (r, .err)
              | .ok value =>
                  match globalsGet r.globals name with
                  | some _ => (runtimeError msgAlreadyDefined r, .err)
                  | none => interpretGo fuel { r with globals := globalsInsert name value r.globals }
          | _ => interpretGo fuel r
      | .GetGlobalVariable | .GetLongGlobalVariable =>
          let (constant, r) :=
            if Opcode.fromByte instruction = .GetGlobalVariable then short_constant r
            else long_constant r
          match constant with
          | .Obj nameRef =>
              let name := r.heap.get nameRef
              match globalsGet r.globals name with
              | some value => interpretGo fuel (push_stack value r)
              | none => (runtimeError msgUndefinedVariable r, .err)
          | _ => interpretGo fuel r
      | .SetGlobal | .SetLongGlobal =>
          let (constant, r) :=
            if Opcode.fromByte instruction = .SetGlobal then short_constant r
            else long_constant r
          match constant with
          | .Obj nameRef =>
              let name := r.heap.get nameRef
              let value := (peep_stack 0 r).getD .Null
              match globalsGet r.globals name with
              | some _ => interpretGo fuel { r with globals := globalsInsert name value r.globals }
              | none => (runtimeError msgAssignBeforeDefenition r, .err)
          | _ => interpretGo fuel r
      | .SetLocal | .SetLongLocal =>
          let (slot, r) :=
            if Opcode.fromByte instruction = .SetLocal then read_byte r else read_bytes 3 r
          interpretGo fuel (set_stack slot ((peep_stack 0 r).getD .Null) r)
      | .GetLocal | .GetLongLocal =>
          let (slot, r) :=
            if Opcode.fromByte instruction = .GetLocal then read_byte r else read_bytes 3 r
          interpretGo fuel (push_stack ((peep_bottom_stack slot r).getD .Null) r)
      | .Jump =>
          let (offset, r) := read_bytes 2 r
          interpretGo fuel { r with ip := r.ip + offset }
      | .JumpIfFalse =>
          let (offset, r) := read_bytes 2 r
          match peep_stack 0 r with
          | some (.Bool x) =>
              if x then interpretGo fuel r
              else interpretGo fuel { r with ip := r.ip + offset }
          | _ => interpretGo fuel (runtimeError msgValueMustBeBoolean r)
      | .JumpBack =>
          let (offset, r) := read_bytes 2 r
          interpretGo fuel { r with ip := r.ip - offset }

/-- Mirrors `Runtime::interpret`: the `assert_ne!` on an empty chunk is the
`panicked` outcome; otherwise run the dispatch loop. -/
def interpret (fuel : Nat) (r : Runtime) : Runtime × VmOut :=
  if r.chunk.len = 0 then (r, .panicked) else interpretGo fuel r

end Runtime

/-- Outcome of a full `interpret(source, runtime)` call from
`bytecode.rs`. -/
inductive RunOut where
  | ok | compileError | runtimeError | panicked | fuelOut
deriving DecidableEq, Repr

/-- Mirrors `interpret` from `bytecode.rs`: compile into a fresh chunk
(failing with `CompileError`), install it with `reset`, run, and on success
point the runtime back at the empty chunk. -/
def interpretSource (fuel : Nat) (source : List Char) (rt : Runtime) : Runtime × RunOut :=
  let ps := Parser.compile source rt.heap
  if ps.error then (rt, .compileError)
  else
    let rt := { rt with heap := ps.heap }
    let rt := rt.reset ps.compiling_chunk
    match Runtime.interpret fuel rt with
    | (r, .ok) => ({ r with chunk := Chunk.new }, .ok)
    | (r, .err) => (r, .runtimeError)
    | (r, .panicked) => (r, .panicked)
    | (r, .fuelOut) => (r, .fuelOut)

/-- Run a program from scratch, as `run_file` does: a fresh `Runtime` on
the empty chunk, then one `interpret` call. -/
def runProgram (source : List Char) : Runtime × RunOut :=
  interpretSource 100000 source (Runtime.new Chunk.new ⟨[]⟩)

end Lox


namespace Lox

/-- Big-endian decoding of the 2-byte operand stored at positions `i`,
`i+1` of a code vector (what the VM's two `read_byte`s reconstruct). -/
def readU16 (code : List Nat) (i : Nat) : Nat :=
  code.getD i 0 * 256 + code.getD (i + 1) 0

/-- A previous/current token used to build concrete parser states for the
witnesses. -/
def tokEx : Token := { token_type := .True, contents := [], line := ⟨1, 1⟩ }

/-- Concrete parser state (one emitted byte) for the `jump_back` witness. -/
def c8State : ParserState :=
  { scanner := Scanner.new [], current := some tokEx, previous := some tokEx,
    error := false, panic := false,
    compiling_chunk := { Chunk.new with code := [10], lines := [⟨1, 1⟩] },
    locals := [], depth := 0, heap := ⟨[]⟩, log := [] }

/-- Concrete runtime positioned on the `JumpBack` that
`Parser.jump_back 0 c8State` emits. -/
def c8Run : Runtime :=
  { Runtime.new Chunk.new ⟨[]⟩ with
      chunk := (Parser.jump_back 0 c8State).compiling_chunk, ip := 1 }

/-- A chunk of `n` placeholder bytes for the patch-jump boundary
witnesses. -/
def bigChunk (n : Nat) : Chunk :=
  { Chunk.new with code := List.replicate n 7, lines := List.replicate n ⟨1, 1⟩ }

/-- Concrete parser state whose forward-jump distance from operand position
0 is exactly 65535 (code length 65537). -/
def c9okState : ParserState :=
  { scanner := Scanner.new [], current := some tokEx, previous := some tokEx,
    error := false, panic := false, compiling_chunk := bigChunk 65537,
    locals := [], depth := 0, heap := ⟨[]⟩, log := [] }

/-- Concrete parser state whose forward-jump distance from operand position
0 is 65536 (code length 65538). -/
def c9errState : ParserState :=
  { scanner := Scanner.new [], current := some tokEx, previous := some tokEx,
    error := false, panic := false, compiling_chunk := bigChunk 65538,
    locals := [], depth := 0, heap := ⟨[]⟩, log := [] }

/-- Concrete runtime whose first instruction is `Negate` (3) on an empty
stack. -/
def c4Run : Runtime :=
  { Runtime.new Chunk.new ⟨[]⟩ with
      chunk := { Chunk.new with code := [3, 0], lines := [⟨1, 1⟩, ⟨1, 1⟩] } }

/-- A chunk whose first instruction is `DefineGlobalVariable` (17) naming
the interned string constant 0 (as `let x = -true;` produces after the
failed negation reset the stack). -/
def c4DefChunk : Chunk :=
  { code := [17, 0], constants := [Value.Obj 0], strings := [0], objects := [0],
    lines := [⟨1, 1⟩, ⟨1, 1⟩] }

/-- Concrete runtime whose first instruction is `DefineGlobalVariable` with
an `Obj` name constant, on an empty stack. -/
def c4DefRun : Runtime :=
  Runtime.new c4DefChunk ⟨[String.toList ("x")]⟩


/-- Length of the placeholder chunk (shared by the patch-jump boundary
witnesses). -/
theorem bigChunk_code_length (n : Nat) : (bigChunk n).code.length = n := by
  simp [bigChunk]

/-- C1: the claim says two string literals with equal contents get equal
`ObjRef`s, so `==` on them is true. In the code `Chunk::make_string`
allocates a fresh object for every literal without consulting the intern
table, the two `"a"` literals get the distinct refs 0 and 1, `Value`
equality compares the handles, and the program `print("a" == "a");` prints
`false`. -/
theorem c1_string_literals_not_interned :
    (let first := Chunk.new.make_string ⟨[]⟩ (String.toList ("a"))
     let second := first.2.1.make_string first.2.2 (String.toList ("a"))
     first.1 = 0 ∧ second.1 = 1 ∧
       second.2.1.constants = [Value.Obj 0, Value.Obj 1] ∧
       Value.beq (Value.Obj 0) (Value.Obj 1) = false) ∧
    (runProgram (String.toList ("print(\"a\" == \"a\");"))).1.printed
      = [String.toList ("false")] ∧
    (runProgram (String.toList ("print(\"a\" == \"a\");"))).2 = RunOut.ok := by
  exact ⟨⟨by decide, by decide, by decide, by decide⟩, by decide, by decide⟩

/-- C2: the claim says the parse-rule table assigns `Identifier` the prefix
rule `variable`. In the code the `Identifier` row is `(None, None,
Precedence::None)`, so compiling the expression statement `x;` reports
"Expected expression", fails, and emits no Get/Set instruction (only the
statement's `Pop` and the final `Return`). -/
theorem c2_identifier_prefix_rule_missing :
    get_rule .Identifier = ⟨none, none, .None⟩ ∧
    (Parser.compile (String.toList ("x;")) ⟨[]⟩).error = true ∧
    (Parser.compile (String.toList ("x;")) ⟨[]⟩).log = [msgExpectedExpression] ∧
    (Parser.compile (String.toList ("x;")) ⟨[]⟩).compiling_chunk.code = [16, 0] := by
  exact ⟨by decide, by decide, by decide, by decide⟩

/-- C3: the claim says `and`/`or` carry infix rules at precedences
`And`/`Or`, making `a and b` compile to the short-circuit jump pattern. In
the code both rows are `(None, None, Precedence::None)`, so after the
left-hand side the parser stops, `true and false;` fails on the missing
semicolon, and no `JumpIfFalse` (28) is emitted (the chunk is only `True`,
`Pop`, `Return`). -/
theorem c3_and_or_infix_rules_missing :
    get_rule .And = ⟨none, none, .None⟩ ∧
    get_rule .Or = ⟨none, none, .None⟩ ∧
    (Parser.compile (String.toList ("true and false;")) ⟨[]⟩).error = true ∧
    (Parser.compile (String.toList ("true and false;")) ⟨[]⟩).log
      = [msgStatementSemicolon] ∧
    (Parser.compile (String.toList ("true and false;")) ⟨[]⟩).compiling_chunk.code
      = [9, 16, 0] := by
  exact ⟨by decide, by decide, by decide, by decide, by decide⟩

/-- C4 (counterexample): the claim says every opcode that pops — including
`Pop` and `Print` — makes `interpret` return `Err` on stack underflow. In
`print(-true);`, `Negate` rejects the boolean (resetting the stack), then
`Print` pops the now-empty stack: "Stack underflow" is printed, but the
`Print` arm discards the `Err` and the run finishes with `Ok`. -/
theorem c4_print_swallows_underflow :
    (runProgram (String.toList ("print(-true);"))).2 = RunOut.ok ∧
    (runProgram (String.toList ("print(-true);"))).1.rtLog
      = [msgOperandsMustBeNumbers, msgStackUnderflow] ∧
    (runProgram (String.toList ("print(-true);"))).1.printed = [msgPrintedErr] := by
  exact ⟨by decide, by decide, by decide⟩

/-- C4 (amended): popping from an empty stack makes the dispatch loop
return `Err(InterpretError)` for every popping opcode except `Print` and
`Pop` (which discard the error and continue): unconditionally for
`Negate` 3, `Add` 4, `Subtract` 5, `Multiply` 6, `Divide` 7, `Not` 11,
`Equal` 12, `Greater` 13, `Less` 14, `Modolo` 30, and for
`DefineGlobalVariable` 17 / `DefineLongGlobalVariable` 18 whenever their
name constant is an `Obj` — the `if let Value::Obj(name)` guard under
which alone those arms pop. -/
theorem c4_underflow_errors_outside_print_pop (fuel : Nat) (r : Runtime) (b : Nat)
    (hstack : r.stack = [])
    (hb : r.chunk.code.getD r.ip 0 = b)
    (hmem : b ∈ [3, 4, 5, 6, 7, 11, 12, 13, 14, 17, 18, 30])
    (hdefs : b = 17 → (Runtime.short_constant { r with ip := r.ip + 1 }).1.isObj = true)
    (hdefl : b = 18 → (Runtime.long_constant { r with ip := r.ip + 1 }).1.isObj = true) :
    (Runtime.interpretGo (fuel + 1) r).2 = .err := by
  fin_cases hmem
  · simp_all [Runtime.interpretGo, Runtime.read_byte, Opcode.fromByte,
      Runtime.pop_stack, Runtime.binary_op]
  · simp_all [Runtime.interpretGo, Runtime.read_byte, Opcode.fromByte,
      Runtime.pop_stack, Runtime.binary_op]
  · simp_all [Runtime.interpretGo, Runtime.read_byte, Opcode.fromByte,
      Runtime.pop_stack, Runtime.binary_op]
  · simp_all [Runtime.interpretGo, Runtime.read_byte, Opcode.fromByte,
      Runtime.pop_stack, Runtime.binary_op]
  · simp_all [Runtime.interpretGo, Runtime.read_byte, Opcode.fromByte,
      Runtime.pop_stack, Runtime.binary_op]
  · simp_all [Runtime.interpretGo, Runtime.read_byte, Opcode.fromByte,
      Runtime.pop_stack, Runtime.binary_op]
  · simp_all [Runtime.interpretGo, Runtime.read_byte, Opcode.fromByte,
      Runtime.pop_stack, Runtime.binary_op]
  · simp_all [Runtime.interpretGo, Runtime.read_byte, Opcode.fromByte,
      Runtime.pop_stack, Runtime.binary_op]
  · simp_all [Runtime.interpretGo, Runtime.read_byte, Opcode.fromByte,
      Runtime.pop_stack, Runtime.binary_op]
  · have hO := hdefs rfl
    cases hv : (Runtime.short_constant { r with ip := r.ip + 1 }).1 with
    | Number n => rw [hv] at hO; simp [Value.isObj] at hO
    | Bool bb => rw [hv] at hO; simp [Value.isObj] at hO
    | Null => rw [hv] at hO; simp [Value.isObj] at hO
    | Obj nameRef =>
        simp only [Runtime.short_constant, Runtime.read_byte] at hv
        simp_all [Runtime.interpretGo, Runtime.read_byte, Opcode.fromByte,
          Runtime.short_constant, Runtime.pop_stack]
  · have hO := hdefl rfl
    cases hv : (Runtime.long_constant { r with ip := r.ip + 1 }).1 with
    | Number n => rw [hv] at hO; simp [Value.isObj] at hO
    | Bool bb => rw [hv] at hO; simp [Value.isObj] at hO
    | Null => rw [hv] at hO; simp [Value.isObj] at hO
    | Obj nameRef =>
        simp only [Runtime.long_constant, Runtime.read_bytes, Runtime.read_byte] at hv
        simp_all [Runtime.interpretGo, Runtime.read_byte, Runtime.read_bytes,
          Opcode.fromByte, Runtime.long_constant, Runtime.pop_stack]
  · simp_all [Runtime.interpretGo, Runtime.read_byte, Opcode.fromByte,
      Runtime.pop_stack, Runtime.binary_op]

/-- C4 (witness): the amended theorem at the concrete runtime `c4Run`
(first opcode `Negate`, empty stack) and at `c4DefRun` (first opcode
`DefineGlobalVariable` with an `Obj` name constant, empty stack). -/
theorem c4_underflow_witness :
    (Runtime.interpretGo 1 c4Run).2 = .err ∧
    (Runtime.interpretGo 1 c4DefRun).2 = .err :=
  ⟨c4_underflow_errors_outside_print_pop 0 c4Run 3 (by decide) (by decide) (by decide)
     (by decide) (by decide),
   c4_underflow_errors_outside_print_pop 0 c4DefRun 17 (by decide) (by decide) (by decide)
     (by decide) (by decide)⟩

/-- C5: the claim says a `.` not followed by a digit is not consumed (so
`1.` scans as `1`) and `1.5` scans as one token `1.5`. In the code
`comsume_number` first consumes the dot via `matches('.')` and only then
tests `peek2` — the second character after the dot — so `1.` scans as
`1.`, and `1.5` scans as the number `1.` followed by the separate number
`5` (while `1.55` does scan as one token). -/
theorem c5_number_scanner_lookahead_bug :
    ((Scanner.new (String.toList ("1."))).next).1.token_type = .NumberLiteral ∧
    ((Scanner.new (String.toList ("1."))).next).1.contents = String.toList ("1.") ∧
    ((Scanner.new (String.toList ("1.5"))).next).1.contents = String.toList ("1.") ∧
    ((Scanner.new (String.toList ("1.5"))).next).2.next.1.token_type = .NumberLiteral ∧
    ((Scanner.new (String.toList ("1.5"))).next).2.next.1.contents = String.toList ("5") ∧
    ((Scanner.new (String.toList ("1.55"))).next).1.contents = String.toList ("1.55") := by
  exact ⟨by decide, by decide, by decide, by decide, by decide, by decide⟩

/-- C6 (counterexample): the claim says every number literal `N` is printed
back as exactly the text `N`. The literal `007` parses to the same `f64`
as `7`, and `print(007);` prints `7`, not `007`. -/
theorem c6_numeral_not_reprinted_verbatim :
    (runProgram (String.toList ("print(007);"))).1.printed = [String.toList ("7")] ∧
    String.toList ("7") ≠ String.toList ("007") := by
  exact ⟨by decide, by decide⟩

/-- C6 (amended): `print(N);` prints the decimal rendering of the `f64`
value `N` parses to (equal to `N` exactly when `N` is already in canonical
form); in particular `print(1 + 2 * 3);` runs to `Ok` and prints exactly
`7`. -/
theorem c6_print_arithmetic_seven :
    (runProgram (String.toList ("print(1 + 2 * 3);"))).1.printed
      = [String.toList ("7")] ∧
    (runProgram (String.toList ("print(1 + 2 * 3);"))).2 = RunOut.ok ∧
    Parser.parseNumeral (String.toList ("007")) = Parser.parseNumeral (String.toList ("7")) := by
  exact ⟨by decide, by decide, by decide⟩

/-- C7: `Runtime::reset` empties the value stack, frees every heap object
in the object vector, and empties the string intern set, while leaving
`globals` exactly unchanged (every binding looks up to the same value
after). -/
theorem c7_reset_preserves_globals (r : Runtime) (c : Chunk) :
    (r.reset c).stack = [] ∧ (r.reset c).objects = [] ∧ (r.reset c).strings = [] ∧
    (r.reset c).chunk = c ∧ (r.reset c).ip = 0 ∧
    (r.reset c).globals = r.globals ∧
    ∀ name, globalsGet (r.reset c).globals name = globalsGet r.globals name := by
  exact ⟨rfl, rfl, rfl, rfl, rfl, rfl, fun _ => rfl⟩

/-- C8: `jump_back` emits a `JumpBack` whose 2-byte big-endian operand is
`code.len() + 3 - target` (the length taken at the moment of emission, and
`target` is `loop_start`, the first byte of the condition code), and the
VM's `JumpBack` arm — read the opcode and the operand, then `ip -= offset`
— lands exactly back on `target`. -/
theorem c8_jump_back_returns_to_loop_start (p : ParserState) (target : Nat) (tok : Token)
    (hprev : p.previous = some tok)
    (hle : target ≤ p.compiling_chunk.len)
    (hfit : p.compiling_chunk.len + 3 - target ≤ 65535) :
    (Parser.jump_back target p).compiling_chunk.code
      = p.compiling_chunk.code ++
        [29, (p.compiling_chunk.len + 3 - target) / 256,
         (p.compiling_chunk.len + 3 - target) % 256] ∧
    readU16 (Parser.jump_back target p).compiling_chunk.code (p.compiling_chunk.len + 1)
      = p.compiling_chunk.len + 3 - target ∧
    ∀ (fuel : Nat) (r : Runtime),
      r.chunk = (Parser.jump_back target p).compiling_chunk →
      r.ip = p.compiling_chunk.len →
      Runtime.interpretGo (fuel + 1) r = Runtime.interpretGo fuel { r with ip := target } := by
  have hnotbig : ¬ (p.compiling_chunk.len + 3 - target > 65535) := by omega
  have e2 : ((p.compiling_chunk.len + 3 - target) >>> 8) % 256 % 256
      = (p.compiling_chunk.len + 3 - target) / 256 := by
    simp only [Nat.shiftRight_eq_div_pow]
    omega
  have e3 : (p.compiling_chunk.len + 3 - target) % 256 % 256
      = (p.compiling_chunk.len + 3 - target) % 256 := by omega
  have hcode : (Parser.jump_back target p).compiling_chunk.code
      = p.compiling_chunk.code ++
        [29, (p.compiling_chunk.len + 3 - target) / 256,
         (p.compiling_chunk.len + 3 - target) % 256] := by
    simp only [Parser.jump_back, hnotbig, if_false, Parser.emit_byte, Parser.emit_bytes,
      hprev, Chunk.push, Opcode.toNat, e2, e3]
    simp
  refine ⟨hcode, ?_, ?_⟩
  · rw [hcode]
    simp only [readU16, List.getD_eq_getElem?_getD]
    rw [List.getElem?_append_right (by simp only [Chunk.len]; omega),
      List.getElem?_append_right (by simp only [Chunk.len]; omega)]
    have hi1 : p.compiling_chunk.len + 1 - p.compiling_chunk.code.length = 1 := by
      simp only [Chunk.len]; omega
    have hi2 : p.compiling_chunk.len + 1 + 1 - p.compiling_chunk.code.length = 2 := by
      simp only [Chunk.len]; omega
    rw [hi1, hi2]
    simp only [List.getElem?_cons_succ, List.getElem?_cons_zero]
    simp only [Option.getD_some]
    omega
  · intro fuel r hchunk hip
    obtain ⟨c0, i0, st0, ob0, strs0, g0, h0, pr0, lg0⟩ := r
    simp only at hchunk hip
    subst hchunk
    subst hip
    simp only [Runtime.interpretGo, Runtime.read_byte, Runtime.read_bytes]
    rw [hcode]
    simp only [List.getD_eq_getElem?_getD]
    rw [List.getElem?_append_right (by simp only [Chunk.len]; omega),
      List.getElem?_append_right (by simp only [Chunk.len]; omega),
      List.getElem?_append_right (by simp only [Chunk.len]; omega)]
    have hi0 : p.compiling_chunk.len - p.compiling_chunk.code.length = 0 := by
      simp only [Chunk.len]; omega
    have hi1 : p.compiling_chunk.len + 1 - p.compiling_chunk.code.length = 1 := by
      simp only [Chunk.len]; omega
    have hi2 : p.compiling_chunk.len + 1 + 1 - p.compiling_chunk.code.length = 2 := by
      simp only [Chunk.len]; omega
    rw [hi0, hi1, hi2]
    simp only [List.getElem?_cons_succ, List.getElem?_cons_zero, Option.getD_some]
    have hfb : Opcode.fromByte 29 = .JumpBack := by decide
    rw [hfb]
    refine congrArg (Runtime.interpretGo fuel) ?_
    simp only [Chunk.len] at hle hfit
    congr 1
    omega

/-- C8 (witness): the theorem at `c8State` (code `[10]`, target 0): the
emitted bytes are `[10, 29, 0, 4]`, the operand decodes to 4, and the VM
step from ip 1 returns to ip 0. -/
theorem c8_jump_back_witness :
    (Parser.jump_back 0 c8State).compiling_chunk.code = [10, 29, 0, 4] ∧
    readU16 (Parser.jump_back 0 c8State).compiling_chunk.code 2 = 4 ∧
    Runtime.interpretGo 1 c8Run = Runtime.interpretGo 0 { c8Run with ip := 0 } := by
  have h := c8_jump_back_returns_to_loop_start c8State 0 tokEx rfl (by decide) (by decide)
  exact ⟨h.1.trans (by decide), h.2.1, h.2.2 0 c8Run rfl (by decide)⟩

/-- C9: patching a forward jump succeeds exactly when the distance fits in
an unsigned 16-bit operand: for `len - start - 2 ≤ 65535` the operand is
written in place (decoding back to the distance) with no diagnostic, and
for a distance of 65536 or more the compile error "Jump too big" is
reported and the code is left untouched. -/
theorem c9_patch_jump_u16_boundary (p : ParserState) (start : Nat) (tok : Token)
    (hcur : p.current = some tok) (hpanic : p.panic = false)
    (hstart : start + 2 ≤ p.compiling_chunk.len) :
    (p.compiling_chunk.len - start - 2 ≤ 65535 →
      (Parser.patch_jump start p).error = p.error ∧
      (Parser.patch_jump start p).log = p.log ∧
      readU16 (Parser.patch_jump start p).compiling_chunk.code start
        = p.compiling_chunk.len - start - 2) ∧
    (65536 ≤ p.compiling_chunk.len - start - 2 →
      (Parser.patch_jump start p).error = true ∧
      (Parser.patch_jump start p).log = p.log ++ [msgJumpTooBig] ∧
      (Parser.patch_jump start p).compiling_chunk.code = p.compiling_chunk.code) := by
  constructor
  · intro hfit
    have hnotbig : ¬ (p.compiling_chunk.len - start - 2 > 65535) := by omega
    simp only [Parser.patch_jump, hnotbig, if_false]
    refine ⟨trivial, trivial, ?_⟩
    have hlen : start < p.compiling_chunk.code.length := by
      have := hstart
      simp only [Chunk.len] at this
      omega
    have hlen2 : start + 1 < p.compiling_chunk.code.length := by
      have := hstart
      simp only [Chunk.len] at this
      omega
    simp only [readU16, List.getD_eq_getElem?_getD]
    rw [List.getElem?_set_ne (by omega), List.getElem?_set_self (by simpa using hlen),
      List.getElem?_set_self (by simp; omega)]
    simp only [Option.getD_some]
    have h8 : (p.compiling_chunk.len - start - 2) >>> 8
        = (p.compiling_chunk.len - start - 2) / 256 := by
      simp [Nat.shiftRight_eq_div_pow]
    rw [h8]
    omega
  · intro hbig
    have hcond : p.compiling_chunk.len - start - 2 > 65535 := by omega
    simp only [Parser.patch_jump, hcond, if_true, Parser.error_at_current, hcur,
      Parser.error_at, hpanic]
    simp

/-- C9 (witness): the theorem at code length 65537 (distance exactly 65535
from operand position 0: compiles, operand decodes to 65535) and at code
length 65538 (distance 65536: "Jump too big"). -/
theorem c9_patch_jump_witness :
    (Parser.patch_jump 0 c9okState).error = false ∧
    readU16 (Parser.patch_jump 0 c9okState).compiling_chunk.code 0 = 65535 ∧
    (Parser.patch_jump 0 c9errState).error = true ∧
    (Parser.patch_jump 0 c9errState).log = [msgJumpTooBig] := by
  have hok := (c9_patch_jump_u16_boundary c9okState 0 tokEx rfl rfl
    (by simp only [c9okState, Chunk.len, bigChunk_code_length]; omega)).1
    (by simp only [c9okState, Chunk.len, bigChunk_code_length]; omega)
  have herr := (c9_patch_jump_u16_boundary c9errState 0 tokEx rfl rfl
    (by simp only [c9errState, Chunk.len, bigChunk_code_length]; omega)).2
    (by simp only [c9errState, Chunk.len, bigChunk_code_length]; omega)
  refine ⟨hok.1.trans rfl, ?_, herr.1, herr.2.1.trans rfl⟩
  rw [hok.2.2]
  simp only [c9okState, Chunk.len, bigChunk_code_length]

/-- C10: a source text whose first token is already `End` (empty, or only
whitespace and comments) compiles "successfully" to a chunk with no bytes
at all — `emit_return` pushes nothing because no previous token exists —
and running it trips `Runtime::interpret`'s non-empty assertion (a panic)
instead of returning `Ok` or `Err`. -/
theorem c10_tokenless_source_panics (source : List Char)
    (hEnd : ((Scanner.new source).next).1.token_type = .End) :
    (Parser.compile source ⟨[]⟩).error = false ∧
    (Parser.compile source ⟨[]⟩).compiling_chunk.code = [] ∧
    (∀ (fuel : Nat) (rt : Runtime), rt.chunk.len = 0 →
      Runtime.interpret fuel rt = (rt, .panicked)) ∧
    (runProgram source).2 = .panicked := by
  rcases hsc : (Scanner.new source).next with ⟨tok, sc⟩
  rw [hsc] at hEnd
  simp only at hEnd
  have hne : ¬ (tok.token_type = TokenType.Error) := by
    rw [hEnd]
    decide
  have hadv : Parser.advance (Parser.new source Chunk.new ⟨[]⟩)
      = { Parser.new source Chunk.new ⟨[]⟩ with current := some tok, scanner := sc } := by
    simp only [Parser.advance, Parser.new]
    simp only [Parser.advanceGo, hsc, hne, if_false]
  have hloop : ∀ (f : Nat) (q : ParserState) (t : Token), q.current = some t →
      t.token_type = .End → Parser.compileLoopGo f q = q := by
    intro f q t hq ht
    cases f with
    | zero => rfl
    | succ f => simp [Parser.compileLoopGo, hq, ht]
  have hcompile : Parser.compile source ⟨[]⟩
      = { Parser.new source Chunk.new ⟨[]⟩ with current := some tok, scanner := sc } := by
    simp only [Parser.compile]
    rw [hadv, hloop _ _ tok rfl hEnd]
    simp [Parser.emit_return, Parser.new]
  have hinterp : ∀ (fuel : Nat) (rt : Runtime), rt.chunk.len = 0 →
      Runtime.interpret fuel rt = (rt, .panicked) := by
    intro fuel rt h
    simp [Runtime.interpret, h]
  refine ⟨by rw [hcompile]; rfl, by rw [hcompile]; rfl, hinterp, ?_⟩
  simp only [runProgram, interpretSource, Runtime.new]
  rw [hcompile]
  simp [Runtime.reset, Runtime.reset_stack, Runtime.free_objects, Runtime.interpret,
    Chunk.len, Parser.new, Chunk.new]

/-- C10 (witness): the theorem at the empty source and at a
comments-and-whitespace source. -/
theorem c10_tokenless_witness :
    (Parser.compile [] ⟨[]⟩).error = false ∧
    (Parser.compile [] ⟨[]⟩).compiling_chunk.code = [] ∧
    (runProgram []).2 = .panicked ∧
    (runProgram (String.toList ("  /* hi */ // x"))).2 = .panicked := by
  have h1 := c10_tokenless_source_panics [] (by decide)
  have h2 := c10_tokenless_source_panics (String.toList ("  /* hi */ // x")) (by decide)
  exact ⟨h1.1, h1.2.1, h1.2.2.2, h2.2.2.2⟩

end Lox
